import Mathlib

/-!
# pnfsdsfile

A shallow embedding of `usr.bin/pnfsdsfile/pnfsdsfile.c`: the utility that
displays, and with `-z` clears, the data storage file location kept in the
extended attribute `pnfsd.dsfile` of a file on a pNFS MetaData Server.

The whole program is the C function `main`.  The operating system services it
calls (`getopt_long`, `getaddrinfo`, `extattr_get_file`, `geteuid`,
`extattr_set_file`, `getnameinfo`) are inputs of the model: `World` holds what
each of them answers, `Invocation` holds what `getopt_long` hands back for the
command line.  `main` returns the exit status, the `err`/`errx`/`usage` site
that ended the run, the bytes printed on standard output and the ordered list
of the system calls that were made.
-/

namespace Pnfsdsfile

/-! ## Constants of the system headers -/

/-- Address family of IPv4, `AF_INET` of `sys/socket.h`. -/
def AF_INET : Nat := 2

/-- Address family of IPv6, `AF_INET6` of `sys/socket.h`. -/
def AF_INET6 : Nat := 28

/-- Attribute namespace `EXTATTR_NAMESPACE_SYSTEM` of `sys/extattr.h`. -/
def EXTATTR_NAMESPACE_SYSTEM : Nat := 2

/-! ## Data model -/

/-- Storage of a socket address as `main` reads it through its two pointer
views, `struct sockaddr_in *` and `struct sockaddr_in6 *`.  Both views share
`sin_len`, `sin_family` and `sin_port`.  `s_addr` is `sin_addr.s_addr` of the
IPv4 view (32 bits; the same bytes are `sin6_flowinfo` in the IPv6 view),
`sin6_addr` is the 128-bit address of the IPv6 view (its first bytes are
`sin_zero` in the IPv4 view) and `sin6_scope_id` the zone of the IPv6 view. -/
structure sockaddr where
  sin_len : Nat
  sin_family : Nat
  sin_port : Nat
  s_addr : Nat
  sin6_addr : Nat
  sin6_scope_id : Nat
deriving DecidableEq, Repr

/-- One node of the list `getaddrinfo` returns; `ai_next` is the tail of the
Lean list the node sits in. -/
structure addrinfo where
  ai_family : Nat
  ai_addrlen : Nat
  ai_addr : sockaddr
deriving DecidableEq, Repr

/-- The record `struct pnfsdsfile` kept in the extended attribute:
`dsf_fh` the bytes of the file handle on the data server, `dsf_dir` the
`uint32_t` index of the `ds<n>` directory, `dsf_nam` the union holding
`dsf_sin` and `dsf_sin6`, `dsf_filename` the characters of the file name
array. -/
structure pnfsdsfile where
  dsf_fh : List Nat
  dsf_dir : Nat
  dsf_nam : sockaddr
  dsf_filename : List Char
deriving DecidableEq, Repr

/-- What one call of `getopt_long(argc, argv, "qs:z", longopts, NULL)` returned
before it returned `-1`: the option character `ch` and the value of `optarg`. -/
structure optret where
  ch : Char
  optarg : String
deriving DecidableEq, Repr

/-- The command line as `getopt_long` presents it: the successive option
returns and the operands left at `argv + optind`. -/
structure Invocation where
  opts : List optret
  operands : List String
deriving DecidableEq, Repr

/-- The answers of the operating system.
`sizeof_dsfile` is `sizeof(struct pnfsdsfile)` of `fs/nfs/nfsrvstate.h`;
`getaddrinfo host` gives the return value and the list stored in `res`;
`extattr_get_file path` gives the return value and the buffer contents;
`extattr_set_file path data` gives the return value;
`getnameinfo sa salen` gives the return value and the C string left in the
`hostn` buffer;
`after_dsfile` is what lies in memory right behind `dsfile.dsf_filename`, the
last member of `dsfile`: the characters up to the next NUL, which `%s` goes
on to print when the array itself holds no NUL. -/
structure World where
  sizeof_dsfile : Nat
  getaddrinfo : String → Int × List addrinfo
  extattr_get_file : String → Int × pnfsdsfile
  geteuid : Nat
  extattr_set_file : String → pnfsdsfile → Int
  getnameinfo : sockaddr → Nat → Int × String
  after_dsfile : List Char

/-- A system call made by `main`, with its arguments. -/
inductive Event where
  | getaddrinfo (hostname : String)
  | extattr_get_file (path : String) (attrnamespace : Nat) (attrname : String)
      (nbytes : Nat)
  | geteuid
  | extattr_set_file (path : String) (attrnamespace : Nat) (attrname : String)
      (data : pnfsdsfile) (nbytes : Nat)
  | getnameinfo (sa : sockaddr) (salen : Nat)
deriving DecidableEq, Repr

/-- The place where `main` gave up, named after the error taxonomy:
`UsageError` is `usage()`, `ResolutionError` the `errx` after `getaddrinfo`,
`AttributeReadError` the `err` after `extattr_get_file`, `PermissionError`
the `errx` after `geteuid`, `AttributeWriteError` the `err` after
`extattr_set_file`, `ReverseResolutionError` the `err` after `getnameinfo`. -/
inductive Fatal where
  | UsageError
  | ResolutionError
  | AttributeReadError
  | PermissionError
  | AttributeWriteError
  | ReverseResolutionError
deriving DecidableEq, Repr

/-- Outcome of a run: exit status, the fatal site if any, standard output and
the system calls in the order they were made. -/
structure Result where
  status : Nat
  fatal : Option Fatal
  stdout : String
  calls : List Event
deriving DecidableEq, Repr

/-- Local variables of `main` that the option loop sets. -/
structure Locals where
  quiet : Bool
  zerofh : Bool
  res : List addrinfo
  calls : List Event
deriving DecidableEq, Repr

/-! ## The program -/

/-- The initial values `zerofh = 0; quiet = 0; res = NULL;`, no call made
yet. -/
def locals0 : Locals :=
  { quiet := false, zerofh := false, res := [], calls := [] }

/-- The calls `err(1, ...)`, `errx(1, ...)` and `usage()`: exit status 1,
nothing on standard output. -/
def die (f : Fatal) (calls : List Event) : Result :=
  { status := 1, fatal := some f, stdout := "", calls := calls }

/-- The `while ((ch = getopt_long(...)) != -1)` loop with its `switch`. -/
def getopt_loop (w : World) : List optret → Locals → Except Result Locals
  | [], l => .ok l
  | o :: rest, l =>
    if o.ch = 'q' then
      getopt_loop w rest { l with quiet := true }
    else if o.ch = 's' then
      let calls := l.calls ++ [Event.getaddrinfo o.optarg]
      if (w.getaddrinfo o.optarg).1 ≠ 0 then
        .error (die Fatal.ResolutionError calls)
      else
        getopt_loop w rest
          { l with res := (w.getaddrinfo o.optarg).2, calls := calls }
    else if o.ch = 'z' then
      getopt_loop w rest { l with zerofh := true }
    else
      .error (die Fatal.UsageError l.calls)

/-- The test of lines 118 to 126 that makes the scan `break` at candidate
`adsin`. -/
def addr_match (sin adsin : sockaddr) : Bool :=
  adsin.sin_family == sin.sin_family &&
    ((sin.sin_family == AF_INET && sin.s_addr == adsin.s_addr) ||
     (sin.sin_family == AF_INET6 && sin.sin6_addr == adsin.sin6_addr))

/-- The `while (ad != NULL)` scan: the value of `ad` when the loop is left,
the nodes from the first match on, or `[]` for `NULL`. -/
def scan (sin : sockaddr) : List addrinfo → List addrinfo
  | [] => []
  | ad :: next => if addr_match sin ad.ai_addr then ad :: next else scan sin next

/-- The call `memset(&dsfile.dsf_fh, 0, sizeof(dsfile.dsf_fh))`. -/
def zero_fh (d : pnfsdsfile) : pnfsdsfile :=
  { d with dsf_fh := List.replicate d.dsf_fh.length 0 }

/-- Conversion `%s` of the character array `cs` with `after` behind it in
memory: the characters before the first NUL.  The conversion has no length
bound, so when `cs` holds no NUL the output runs on through `after`. -/
def fmt_s (cs after : List Char) : List Char :=
  (cs ++ after).takeWhile (fun c => c != Char.ofNat 0)

/-- Conversion `%d` of a 32-bit value: its decimal numeral read as a signed
`int`. -/
def fmt_d (v : Nat) : String :=
  if v % 2 ^ 32 < 2 ^ 31 then toString (v % 2 ^ 32)
  else "-" ++ toString (2 ^ 32 - v % 2 ^ 32)

/-- The call `printf("%s\tds%d/%s\n", hostn, dsfile.dsf_dir,
dsfile.dsf_filename)`. -/
def printf_line (hostn : String) (d : pnfsdsfile) (after : List Char) :
    String :=
  hostn ++ "\tds" ++ fmt_d d.dsf_dir ++ "/"
    ++ String.mk (fmt_s d.dsf_filename after) ++ "\n"

/-- Lines 139 to 147: leave with status 0 when quiet, else translate the
address to a host name and print the line. -/
def describe (w : World) (quiet : Bool) (dsfile : pnfsdsfile)
    (calls : List Event) : Result :=
  if quiet then
    { status := 0, fatal := none, stdout := "", calls := calls }
  else
    let calls := calls ++
      [Event.getnameinfo dsfile.dsf_nam dsfile.dsf_nam.sin_len]
    if (w.getnameinfo dsfile.dsf_nam dsfile.dsf_nam.sin_len).1 < 0 then
      die Fatal.ReverseResolutionError calls
    else
      { status := 0, fatal := none,
        stdout := printf_line
          (w.getnameinfo dsfile.dsf_nam dsfile.dsf_nam.sin_len).2 dsfile
          w.after_dsfile,
        calls := calls }

/-- Lines 104 to 137, the `zerofh` block, followed by the rest of `main`. -/
def zerofh_block (w : World) (path : String) (l : Locals)
    (dsfile : pnfsdsfile) (calls : List Event) : Result :=
  if l.zerofh then
    let calls := calls ++ [Event.geteuid]
    if w.geteuid ≠ 0 then
      die Fatal.PermissionError calls
    else
      if l.res = [] ∨ scan dsfile.dsf_nam l.res ≠ [] then
        let dsfile := zero_fh dsfile
        let calls := calls ++
          [Event.extattr_set_file path EXTATTR_NAMESPACE_SYSTEM "pnfsd.dsfile"
            dsfile w.sizeof_dsfile]
        if w.extattr_set_file path dsfile ≠ (w.sizeof_dsfile : Int) then
          die Fatal.AttributeWriteError calls
        else
          describe w l.quiet dsfile calls
      else
        describe w l.quiet dsfile calls
  else
    describe w l.quiet dsfile calls

/-- The function `main`. -/
def main (w : World) (inv : Invocation) : Result :=
  match getopt_loop w inv.opts locals0 with
  | .error r => r
  | .ok l =>
    match inv.operands with
    | [path] =>
      let calls := l.calls ++
        [Event.extattr_get_file path EXTATTR_NAMESPACE_SYSTEM "pnfsd.dsfile"
          w.sizeof_dsfile]
      if (w.extattr_get_file path).1 ≠ (w.sizeof_dsfile : Int) then
        die Fatal.AttributeReadError calls
      else
        zerofh_block w path l (w.extattr_get_file path).2 calls
    | _ => die Fatal.UsageError l.calls

/-- The calls the `zerofh` block and the rest of `main` add, spelled out. -/
def tail_calls (w : World) (path : String) (l : Locals) (d : pnfsdsfile) :
    List Event :=
  if l.zerofh then
    Event.geteuid ::
      (if w.geteuid ≠ 0 then []
       else if l.res = [] ∨ scan d.dsf_nam l.res ≠ [] then
         Event.extattr_set_file path EXTATTR_NAMESPACE_SYSTEM "pnfsd.dsfile"
             (zero_fh d) w.sizeof_dsfile ::
           (if w.extattr_set_file path (zero_fh d) ≠ (w.sizeof_dsfile : Int)
              then []
            else if l.quiet then []
            else [Event.getnameinfo d.dsf_nam d.dsf_nam.sin_len])
       else if l.quiet then []
       else [Event.getnameinfo d.dsf_nam d.dsf_nam.sin_len])
  else if l.quiet then []
  else [Event.getnameinfo d.dsf_nam d.dsf_nam.sin_len]

/-! ## Worlds that differ in ports and scopes only -/

/-- The socket address with its port replaced by `p sa` and its IPv6 scope by
`z sa`; family and both address fields are kept. -/
def set_port_scope (p z : sockaddr → Nat) (sa : sockaddr) : sockaddr :=
  { sa with sin_port := p sa, sin6_scope_id := z sa }

/-- The candidate with port and scope of its address replaced. -/
def addrinfo.set_port_scope (p z : sockaddr → Nat) (ad : addrinfo) : addrinfo :=
  { ad with ai_addr := Pnfsdsfile.set_port_scope p z ad.ai_addr }

/-- The locals with the candidates carrying the replaced ports and scopes. -/
def Locals.set_port_scope (p z : sockaddr → Nat) (l : Locals) : Locals :=
  { l with res := l.res.map (addrinfo.set_port_scope p z) }

/-- The world in which every resolved candidate and every stored record carry
the replaced ports and scopes; everything else answers as in `w`. -/
def World.set_port_scope (w : World) (p z : sockaddr → Nat) : World :=
  { w with
    getaddrinfo := fun h =>
      ((w.getaddrinfo h).1,
        (w.getaddrinfo h).2.map (addrinfo.set_port_scope p z)),
    extattr_get_file := fun f =>
      ((w.extattr_get_file f).1,
        { (w.extattr_get_file f).2 with
          dsf_nam :=
            Pnfsdsfile.set_port_scope p z (w.extattr_get_file f).2.dsf_nam }) }

/-! ## Sample worlds -/

/-- An IPv4 socket address. -/
def sa4 (addr port : Nat) : sockaddr :=
  { sin_len := 16, sin_family := AF_INET, sin_port := port, s_addr := addr,
    sin6_addr := 0, sin6_scope_id := 0 }

/-- An IPv6 socket address. -/
def sa6 (addr port scope : Nat) : sockaddr :=
  { sin_len := 28, sin_family := AF_INET6, sin_port := port, s_addr := 0,
    sin6_addr := addr, sin6_scope_id := scope }

/-- The record of the scenarios: IPv4 203.0.113.5, directory 2, file
`chunk001`. -/
def rec0 : pnfsdsfile :=
  { dsf_fh := [1, 2, 3, 4], dsf_dir := 2, dsf_nam := sa4 3405803781 2049,
    dsf_filename := "chunk001".toList ++ [Char.ofNat 0, 'x'] }

/-- A record with an IPv6 server address, 2001:db8::5 scope 1, whose handle is
already zero. -/
def rec6 : pnfsdsfile :=
  { dsf_fh := [0, 0, 0, 0], dsf_dir := 7,
    dsf_nam := sa6 42540766411282592856903984951653826565 2049 1,
    dsf_filename := "chunk006".toList ++ [Char.ofNat 0] }

/-- A record whose address was never filled in: family 0 and length 0. -/
def rec_unset : pnfsdsfile :=
  { dsf_fh := [9, 9, 9, 9], dsf_dir := 3,
    dsf_nam := { sin_len := 0, sin_family := 0, sin_port := 0, s_addr := 0,
                 sin6_addr := 0, sin6_scope_id := 0 },
    dsf_filename := "chunk003".toList ++ [Char.ofNat 0] }

/-- A record whose name array is full and holds no NUL. -/
def rec_full : pnfsdsfile :=
  { dsf_fh := [5, 6, 7, 8], dsf_dir := 1, dsf_nam := sa4 3405803781 2049,
    dsf_filename := "aaaa".toList }

/-- A world: the attribute of file `f` holds `rec0`, that of file `g` holds
`rec6`, that of file `u` holds `rec_unset` and that of file `n` holds
`rec_full`, other files have none; host `ds1` resolves to 203.0.113.5, `ds2`
to 198.51.100.9, `ds6` to 2001:db8::5 scope 0 and other names do not resolve;
the caller has effective uid `euid` and reverse lookup answers `rc` with
`hostn` in the buffer; the characters `XY` and a NUL lie behind the record. -/
def world0 (euid : Nat) (rc : Int) (hostn : String) : World :=
  { sizeof_dsfile := 120,
    getaddrinfo := fun h =>
      if h = "ds1" then (0, [⟨AF_INET, 16, sa4 3405803781 0⟩])
      else if h = "ds2" then (0, [⟨AF_INET, 16, sa4 3325256713 0⟩])
      else if h = "ds6" then
        (0, [⟨AF_INET6, 28, sa6 42540766411282592856903984951653826565 0 0⟩])
      else (8, []),
    extattr_get_file := fun p =>
      if p = "f" then (120, rec0) else if p = "g" then (120, rec6)
      else if p = "u" then (120, rec_unset)
      else if p = "n" then (120, rec_full)
      else (-1, rec0),
    geteuid := euid,
    extattr_set_file := fun _ _ => 120,
    getnameinfo := fun _ _ => (rc, hostn),
    after_dsfile := ['X', 'Y'] }

/-- Whether the event is a write of the attribute. -/
def Event.is_write : Event → Bool
  | .extattr_set_file _ _ _ _ _ => true
  | _ => false

/-- Whether the event is a read of the attribute. -/
def Event.is_load : Event → Bool
  | .extattr_get_file _ _ _ _ => true
  | _ => false

/-- Whether the event is an address resolution. -/
def Event.is_getaddrinfo : Event → Bool
  | .getaddrinfo _ => true
  | _ => false

/-! ## Lemmas on the option loop -/

theorem getopt_loop_ok_calls (w : World) :
    ∀ (opts : List optret) (l l2 : Locals), getopt_loop w opts l = .ok l2 →
      ∃ hs : List String, l2.calls = l.calls ++ hs.map Event.getaddrinfo := by
  intro opts
  induction opts with
  | nil =>
    intro l l2 h
    simp only [getopt_loop, Except.ok.injEq] at h
    exact ⟨[], by simp [h]⟩
  | cons o rest ih =>
    intro l l2 h
    unfold getopt_loop at h
    split_ifs at h with hq hs hrc hz
    · have h2 := ih _ _ h
      exact h2
    · obtain ⟨hs2, e⟩ := ih _ _ h
      exact ⟨o.optarg :: hs2, by simp [e]⟩
    · have h2 := ih _ _ h
      exact h2

theorem getopt_loop_error (w : World) :
    ∀ (opts : List optret) (l : Locals) (r : Result),
      getopt_loop w opts l = .error r →
      r.status = 1 ∧ r.stdout = "" ∧
      (r.fatal = some Fatal.ResolutionError ∨ r.fatal = some Fatal.UsageError) ∧
      ∃ hs : List String, r.calls = l.calls ++ hs.map Event.getaddrinfo := by
  intro opts
  induction opts with
  | nil =>
    intro l r h
    simp [getopt_loop] at h
  | cons o rest ih =>
    intro l r h
    unfold getopt_loop at h
    split_ifs at h with hq hs hrc hz
    · have h2 := ih _ _ h
      exact h2
    · simp only [Except.error.injEq] at h
      subst h
      exact ⟨rfl, rfl, Or.inl rfl, [o.optarg], by simp [die]⟩
    · obtain ⟨h1, h2, h3, hs2, e⟩ := ih _ _ h
      exact ⟨h1, h2, h3, o.optarg :: hs2, by simp [e]⟩
    · have h2 := ih _ _ h
      exact h2
    · simp only [Except.error.injEq] at h
      subst h
      exact ⟨rfl, rfl, Or.inr rfl, [], by simp [die]⟩

theorem getopt_loop_ok_getaddrinfo (w : World) (opts : List optret)
    (l : Locals) (h : getopt_loop w opts locals0 = .ok l) :
    ∀ e ∈ l.calls, e.is_getaddrinfo = true := by
  obtain ⟨hs, e⟩ := getopt_loop_ok_calls w opts locals0 l h
  intro ev hev
  rw [e] at hev
  simp only [locals0, List.nil_append, List.mem_map] at hev
  obtain ⟨a, _, rfl⟩ := hev
  rfl

theorem getopt_loop_error_getaddrinfo (w : World) (opts : List optret)
    (r : Result) (h : getopt_loop w opts locals0 = .error r) :
    ∀ e ∈ r.calls, e.is_getaddrinfo = true := by
  obtain ⟨_, _, _, hs, e⟩ := getopt_loop_error w opts locals0 r h
  intro ev hev
  rw [e] at hev
  simp only [locals0, List.nil_append, List.mem_map] at hev
  obtain ⟨a, _, rfl⟩ := hev
  rfl

/-! ## Lemmas on the scan -/

theorem addr_match_iff (sin adsin : sockaddr) :
    addr_match sin adsin = true ↔
      adsin.sin_family = sin.sin_family ∧
      ((sin.sin_family = AF_INET ∧ sin.s_addr = adsin.s_addr) ∨
       (sin.sin_family = AF_INET6 ∧ sin.sin6_addr = adsin.sin6_addr)) := by
  simp [addr_match]

theorem scan_ne_nil_iff (sin : sockaddr) (res : List addrinfo) :
    scan sin res ≠ [] ↔ ∃ ad ∈ res, addr_match sin ad.ai_addr = true := by
  induction res with
  | nil => simp [scan]
  | cons ad next ih =>
    unfold scan
    by_cases hm : addr_match sin ad.ai_addr = true
    · simp [hm]
    · simp only [hm, Bool.false_eq_true, if_false, List.mem_cons, exists_eq_or_imp,
        false_or]
      exact ih

/-! ## Lemmas on the stages of `main` -/

theorem describe_calls (w : World) (quiet : Bool) (d : pnfsdsfile)
    (calls : List Event) :
    (describe w quiet d calls).calls =
      calls ++ (if quiet then []
        else [Event.getnameinfo d.dsf_nam d.dsf_nam.sin_len]) := by
  unfold describe
  cases quiet
  · simp only [Bool.false_eq_true, if_false]
    split_ifs <;> simp [die]
  · simp

theorem main_ok (w : World) (inv : Invocation) (l : Locals) (path : String)
    (hopt : getopt_loop w inv.opts locals0 = .ok l)
    (hargs : inv.operands = [path]) :
    main w inv =
      if (w.extattr_get_file path).1 ≠ (w.sizeof_dsfile : Int) then
        die Fatal.AttributeReadError (l.calls ++
          [Event.extattr_get_file path EXTATTR_NAMESPACE_SYSTEM "pnfsd.dsfile"
            w.sizeof_dsfile])
      else
        zerofh_block w path l (w.extattr_get_file path).2 (l.calls ++
          [Event.extattr_get_file path EXTATTR_NAMESPACE_SYSTEM "pnfsd.dsfile"
            w.sizeof_dsfile]) := by
  unfold main
  rw [hopt]
  simp only [hargs]

theorem zerofh_block_calls (w : World) (path : String) (l : Locals)
    (d : pnfsdsfile) (calls : List Event) :
    (zerofh_block w path l d calls).calls = calls ++ tail_calls w path l d := by
  unfold zerofh_block tail_calls
  by_cases hz : l.zerofh = true
  · by_cases hroot : w.geteuid = 0
    · by_cases hcond : l.res = [] ∨ scan d.dsf_nam l.res ≠ []
      · by_cases hset : w.extattr_set_file path (zero_fh d) = (w.sizeof_dsfile : Int)
        · have hd : (zero_fh d).dsf_nam = d.dsf_nam := rfl
          simp [hz, hroot, hcond, hset, describe_calls, hd]
        · simp [hz, hroot, hcond, hset, die]
      · simp [hz, hroot, hcond, describe_calls]
    · simp [hz, hroot, die]
  · simp [hz, describe_calls]

theorem zerofh_block_write (w : World) (path : String) (l : Locals)
    (d : pnfsdsfile) (calls : List Event) (e : Event)
    (hcalls : ∀ c ∈ calls, c.is_write = false)
    (he : e ∈ (zerofh_block w path l d calls).calls)
    (hw : e.is_write = true) :
    e = Event.extattr_set_file path EXTATTR_NAMESPACE_SYSTEM "pnfsd.dsfile"
          (zero_fh d) w.sizeof_dsfile ∧
      l.zerofh = true ∧ w.geteuid = 0 ∧
      (l.res = [] ∨ scan d.dsf_nam l.res ≠ []) := by
  rw [zerofh_block_calls] at he
  rcases List.mem_append.mp he with h1 | h1
  · have := hcalls e h1
    rw [hw] at this
    exact Bool.noConfusion this
  · unfold tail_calls at h1
    by_cases hz : l.zerofh = true
    · by_cases hroot : w.geteuid = 0
      · by_cases hcond : l.res = [] ∨ scan d.dsf_nam l.res ≠ []
        · simp only [hz, hroot, hcond, if_true, ne_eq, not_true_eq_false,
            if_false, List.mem_cons] at h1
          rcases h1 with h1 | h1 | h1
          · subst h1
            simp [Event.is_write] at hw
          · exact ⟨h1, hz, hroot, hcond⟩
          · split_ifs at h1 <;>
              first
              | exact absurd h1 (List.not_mem_nil _)
              | (simp only [List.mem_singleton] at h1
                 subst h1
                 simp [Event.is_write] at hw)
        · simp only [hz, hroot, hcond, if_true, ne_eq, not_true_eq_false,
            if_false, List.mem_cons] at h1
          rcases h1 with h1 | h1
          · subst h1
            simp [Event.is_write] at hw
          · split_ifs at h1 <;>
              first
              | exact absurd h1 (List.not_mem_nil _)
              | (simp only [List.mem_singleton] at h1
                 subst h1
                 simp [Event.is_write] at hw)
      · simp only [hz, hroot, if_true, ne_eq, not_false_eq_true,
          List.mem_singleton] at h1
        subst h1
        simp [Event.is_write] at hw
    · simp only [hz, Bool.false_eq_true, if_false] at h1
      split_ifs at h1 <;>
              first
              | exact absurd h1 (List.not_mem_nil _)
              | (simp only [List.mem_singleton] at h1
                 subst h1
                 simp [Event.is_write] at hw)

theorem zerofh_block_write_mem (w : World) (path : String) (l : Locals)
    (d : pnfsdsfile) (calls : List Event)
    (hz : l.zerofh = true) (hroot : w.geteuid = 0)
    (hcond : l.res = [] ∨ scan d.dsf_nam l.res ≠ []) :
    Event.extattr_set_file path EXTATTR_NAMESPACE_SYSTEM "pnfsd.dsfile"
      (zero_fh d) w.sizeof_dsfile ∈ (zerofh_block w path l d calls).calls := by
  rw [zerofh_block_calls]
  unfold tail_calls
  simp [hz, hroot, hcond]

theorem main_write (w : World) (inv : Invocation) (e : Event)
    (he : e ∈ (main w inv).calls) (hw : e.is_write = true) :
    ∃ l path, getopt_loop w inv.opts locals0 = .ok l ∧ inv.operands = [path] ∧
      (w.extattr_get_file path).1 = (w.sizeof_dsfile : Int) ∧
      e = Event.extattr_set_file path EXTATTR_NAMESPACE_SYSTEM "pnfsd.dsfile"
          (zero_fh (w.extattr_get_file path).2) w.sizeof_dsfile ∧
      l.zerofh = true ∧ w.geteuid = 0 ∧
      (l.res = [] ∨ scan (w.extattr_get_file path).2.dsf_nam l.res ≠ []) := by
  have notw : ∀ c : Event, c.is_getaddrinfo = true → c.is_write = false := by
    intro c hc
    cases c <;> simp_all [Event.is_getaddrinfo, Event.is_write]
  cases hopt : getopt_loop w inv.opts locals0 with
  | error r =>
    have hm : main w inv = r := by
      unfold main
      rw [hopt]
    rw [hm] at he
    have := notw e (getopt_loop_error_getaddrinfo w inv.opts r hopt e he)
    rw [hw] at this
    exact Bool.noConfusion this
  | ok l =>
    have hl : ∀ c ∈ l.calls, c.is_write = false := fun c hc =>
      notw c (getopt_loop_ok_getaddrinfo w inv.opts l hopt c hc)
    have nomem : e ∉ l.calls := fun hm => by
      have := hl e hm
      rw [hw] at this
      exact Bool.noConfusion this
    by_cases hargs : ∃ path, inv.operands = [path]
    · obtain ⟨path, hargs⟩ := hargs
      rw [main_ok w inv l path hopt hargs] at he
      split_ifs at he with hload
      · simp only [die, List.mem_append, List.mem_singleton] at he
        rcases he with h1 | h1
        · exact absurd h1 nomem
        · subst h1
          simp [Event.is_write] at hw
      · have hcalls : ∀ c ∈ l.calls ++
            [Event.extattr_get_file path EXTATTR_NAMESPACE_SYSTEM "pnfsd.dsfile"
              w.sizeof_dsfile], c.is_write = false := by
          intro c hc
          rcases List.mem_append.mp hc with h1 | h1
          · exact hl c h1
          · simp only [List.mem_singleton] at h1
            subst h1
            rfl
        obtain ⟨h1, h2, h3, h4⟩ :=
          zerofh_block_write w path l _ _ e hcalls he hw
        exact ⟨l, path, rfl, hargs, not_not.mp hload, h1, h2, h3, h4⟩
    · have hm : main w inv = die Fatal.UsageError l.calls := by
        unfold main
        rw [hopt]
        match hops : inv.operands with
        | [] => rfl
        | [p] => exact absurd ⟨p, hops⟩ hargs
        | _ :: _ :: _ => rfl
      rw [hm] at he
      exact absurd he nomem

theorem main_write_iff (w : World) (inv : Invocation) :
    (∃ e ∈ (main w inv).calls, e.is_write = true) ↔
      ∃ l path, getopt_loop w inv.opts locals0 = .ok l ∧
        inv.operands = [path] ∧
        (w.extattr_get_file path).1 = (w.sizeof_dsfile : Int) ∧
        l.zerofh = true ∧ w.geteuid = 0 ∧
        (l.res = [] ∨ scan (w.extattr_get_file path).2.dsf_nam l.res ≠ []) := by
  constructor
  · rintro ⟨e, he, hw⟩
    obtain ⟨l, path, h1, h2, h3, _, h5, h6, h7⟩ := main_write w inv e he hw
    exact ⟨l, path, h1, h2, h3, h5, h6, h7⟩
  · rintro ⟨l, path, h1, h2, h3, h5, h6, h7⟩
    refine ⟨Event.extattr_set_file path EXTATTR_NAMESPACE_SYSTEM "pnfsd.dsfile"
      (zero_fh (w.extattr_get_file path).2) w.sizeof_dsfile, ?_, rfl⟩
    rw [main_ok w inv l path h1 h2, if_neg (not_not.mpr h3)]
    exact zerofh_block_write_mem w path l _ _ h5 h6 h7

/-! ## Lemmas on ports and scopes -/

theorem addr_match_set_port_scope (p z : sockaddr → Nat) (sin adsin : sockaddr) :
    addr_match (set_port_scope p z sin) (set_port_scope p z adsin) =
      addr_match sin adsin := by
  simp [addr_match, set_port_scope]

theorem scan_set_port_scope (p z : sockaddr → Nat) (sin : sockaddr)
    (res : List addrinfo) :
    scan (set_port_scope p z sin) (res.map (addrinfo.set_port_scope p z)) =
      (scan sin res).map (addrinfo.set_port_scope p z) := by
  induction res with
  | nil => simp [scan]
  | cons ad next ih =>
    simp only [List.map_cons, scan]
    have hm : addr_match (set_port_scope p z sin)
        (addrinfo.set_port_scope p z ad).ai_addr = addr_match sin ad.ai_addr :=
      addr_match_set_port_scope p z sin ad.ai_addr
    rw [hm]
    by_cases h : addr_match sin ad.ai_addr = true
    · simp [h]
    · simp [h, ih]

theorem getopt_loop_set_port_scope (w : World) (p z : sockaddr → Nat) :
    ∀ (opts : List optret) (l : Locals),
      getopt_loop (w.set_port_scope p z) opts (l.set_port_scope p z) =
        (getopt_loop w opts l).map (Locals.set_port_scope p z) := by
  intro opts
  induction opts with
  | nil =>
    intro l
    rfl
  | cons o rest ih =>
    intro l
    unfold getopt_loop
    by_cases hq : o.ch = 'q'
    · simp only [hq, if_true]
      exact ih { l with quiet := true }
    · by_cases hs : o.ch = 's'
      · by_cases hrc : (w.getaddrinfo o.optarg).1 = 0
        · have hrc2 : ((w.set_port_scope p z).getaddrinfo o.optarg).1 = 0 := hrc
          simp only [hq, hs, if_true, if_false, hrc, hrc2, ne_eq,
            not_true_eq_false]
          exact ih { l with res := (w.getaddrinfo o.optarg).2,
                            calls := l.calls ++ [Event.getaddrinfo o.optarg] }
        · have hrc2 : ¬ ((w.set_port_scope p z).getaddrinfo o.optarg).1 = 0 := hrc
          simp only [hq, hs, if_true, if_false, hrc, hrc2, ne_eq,
            not_false_eq_true]
          rfl
      · by_cases hz : o.ch = 'z'
        · simp only [hq, hs, hz, if_true, if_false]
          exact ih { l with zerofh := true }
        · simp only [hq, hs, hz, if_false]
          rfl

theorem main_set_port_scope (w : World) (p z : sockaddr → Nat)
    (inv : Invocation) :
    (main (w.set_port_scope p z) inv).calls.any Event.is_write =
      (main w inv).calls.any Event.is_write := by
  have hg := getopt_loop_set_port_scope w p z inv.opts locals0
  have h0 : locals0.set_port_scope p z = locals0 := rfl
  rw [h0] at hg
  rw [Bool.eq_iff_iff, List.any_eq_true, List.any_eq_true, main_write_iff,
    main_write_iff]
  constructor
  · rintro ⟨l2, path, h1, h2, h3, h4, h5, h6⟩
    rw [hg] at h1
    cases hopt : getopt_loop w inv.opts locals0 with
    | error r =>
      rw [hopt] at h1
      cases h1
    | ok l =>
      rw [hopt] at h1
      simp only [Except.map, Except.ok.injEq] at h1
      subst h1
      refine ⟨l, path, rfl, h2, h3, h4, h5, ?_⟩
      have h7 : (l.res.map (addrinfo.set_port_scope p z) = [] ∨
          scan (set_port_scope p z (w.extattr_get_file path).2.dsf_nam)
            (l.res.map (addrinfo.set_port_scope p z)) ≠ []) := h6
      rw [scan_set_port_scope] at h7
      simpa using h7
  · rintro ⟨l, path, h1, h2, h3, h4, h5, h6⟩
    refine ⟨l.set_port_scope p z, path, ?_, h2, h3, h4, h5, ?_⟩
    · rw [hg, h1]
      rfl
    · have h7 : (l.res.map (addrinfo.set_port_scope p z) = [] ∨
          scan (set_port_scope p z (w.extattr_get_file path).2.dsf_nam)
            (l.res.map (addrinfo.set_port_scope p z)) ≠ []) := by
        rw [scan_set_port_scope]
        simpa using h6
      exact h7

/-! ## Lemmas on resolution inside the option loop -/

theorem getopt_loop_resolution_error (w : World) :
    ∀ (opts : List optret) (l : Locals),
      (∀ o ∈ opts, o.ch = 'q' ∨ o.ch = 's' ∨ o.ch = 'z') →
      (∃ o ∈ opts, o.ch = 's' ∧ (w.getaddrinfo o.optarg).1 ≠ 0) →
      ∃ r, getopt_loop w opts l = .error r ∧
        r.fatal = some Fatal.ResolutionError := by
  intro opts
  induction opts with
  | nil =>
    intro l _ hf
    simp at hf
  | cons o rest ih =>
    intro l hwf hf
    have hwf2 : ∀ o ∈ rest, o.ch = 'q' ∨ o.ch = 's' ∨ o.ch = 'z' :=
      fun x hx => hwf x (List.mem_cons_of_mem _ hx)
    unfold getopt_loop
    by_cases hq : o.ch = 'q'
    · have hrest : ∃ o ∈ rest, o.ch = 's' ∧ (w.getaddrinfo o.optarg).1 ≠ 0 := by
        obtain ⟨x, hx, hxs, hxf⟩ := hf
        rcases List.mem_cons.mp hx with h1 | h1
        · subst h1
          rw [hq] at hxs
          exact absurd hxs (by decide)
        · exact ⟨x, h1, hxs, hxf⟩
      simp only [hq, if_true]
      exact ih _ hwf2 hrest
    · by_cases hs : o.ch = 's'
      · by_cases hrc : (w.getaddrinfo o.optarg).1 = 0
        · have hrest : ∃ o ∈ rest, o.ch = 's' ∧
              (w.getaddrinfo o.optarg).1 ≠ 0 := by
            obtain ⟨x, hx, hxs, hxf⟩ := hf
            rcases List.mem_cons.mp hx with h1 | h1
            · subst h1
              exact absurd hrc hxf
            · exact ⟨x, h1, hxs, hxf⟩
          simp only [hq, hs, if_true, if_false, hrc, ne_eq, not_true_eq_false]
          exact ih _ hwf2 hrest
        · simp only [hq, hs, if_true, if_false, hrc, ne_eq, not_false_eq_true]
          exact ⟨_, rfl, rfl⟩
      · have hz : o.ch = 'z' := by
          rcases hwf o (List.mem_cons_self _ _) with h | h | h
          · exact absurd h hq
          · exact absurd h hs
          · exact h
        have hrest : ∃ o ∈ rest, o.ch = 's' ∧
            (w.getaddrinfo o.optarg).1 ≠ 0 := by
          obtain ⟨x, hx, hxs, hxf⟩ := hf
          rcases List.mem_cons.mp hx with h1 | h1
          · subst h1
            exact absurd hxs hs
          · exact ⟨x, h1, hxs, hxf⟩
        simp only [hq, hs, hz, if_true, if_false]
        exact ih _ hwf2 hrest

theorem getopt_loop_resolution_ok (w : World) :
    ∀ (opts : List optret) (l : Locals),
      (∀ o ∈ opts, o.ch = 'q' ∨ o.ch = 's' ∨ o.ch = 'z') →
      (∀ o ∈ opts, o.ch = 's' → (w.getaddrinfo o.optarg).1 = 0) →
      ∃ l2, getopt_loop w opts l = .ok l2 ∧
        ((∀ o ∈ opts, o.ch = 's' → (w.getaddrinfo o.optarg).2 ≠ []) →
          ((∃ o ∈ opts, o.ch = 's') ∨ l.res ≠ []) → l2.res ≠ []) := by
  intro opts
  induction opts with
  | nil =>
    intro l _ _
    refine ⟨l, rfl, ?_⟩
    intro _ h
    rcases h with h | h
    · simp at h
    · exact h
  | cons o rest ih =>
    intro l hwf hok
    have hwf2 : ∀ o ∈ rest, o.ch = 'q' ∨ o.ch = 's' ∨ o.ch = 'z' :=
      fun x hx => hwf x (List.mem_cons_of_mem _ hx)
    have hok2 : ∀ o ∈ rest, o.ch = 's' → (w.getaddrinfo o.optarg).1 = 0 :=
      fun x hx => hok x (List.mem_cons_of_mem _ hx)
    unfold getopt_loop
    by_cases hq : o.ch = 'q'
    · obtain ⟨l2, h1, h2⟩ := ih { l with quiet := true } hwf2 hok2
      simp only [hq, if_true]
      refine ⟨l2, h1, ?_⟩
      intro hne hsome
      apply h2 (fun x hx => hne x (List.mem_cons_of_mem _ hx))
      rcases hsome with ⟨x, hx, hxs⟩ | h
      · rcases List.mem_cons.mp hx with h3 | h3
        · subst h3
          rw [hq] at hxs
          exact absurd hxs (by decide)
        · exact Or.inl ⟨x, h3, hxs⟩
      · exact Or.inr h
    · by_cases hs : o.ch = 's'
      · have hrc := hok o (List.mem_cons_self _ _) hs
        obtain ⟨l2, h1, h2⟩ := ih
          (Locals.mk l.quiet l.zerofh (w.getaddrinfo o.optarg).2
            (l.calls ++ [Event.getaddrinfo o.optarg])) hwf2 hok2
        simp only [hq, hs, if_true, if_false, hrc, ne_eq, not_true_eq_false]
        refine ⟨l2, h1, ?_⟩
        intro hne _
        apply h2 (fun x hx => hne x (List.mem_cons_of_mem _ hx))
        exact Or.inr (hne o (List.mem_cons_self _ _) hs)
      · have hz : o.ch = 'z' := by
          rcases hwf o (List.mem_cons_self _ _) with h | h | h
          · exact absurd h hq
          · exact absurd h hs
          · exact h
        obtain ⟨l2, h1, h2⟩ := ih { l with zerofh := true } hwf2 hok2
        simp only [hq, hs, hz, if_true, if_false]
        refine ⟨l2, h1, ?_⟩
        intro hne hsome
        apply h2 (fun x hx => hne x (List.mem_cons_of_mem _ hx))
        rcases hsome with ⟨x, hx, hxs⟩ | h
        · rcases List.mem_cons.mp hx with h3 | h3
          · subst h3
            exact absurd hxs hs
          · exact Or.inl ⟨x, h3, hxs⟩
        · exact Or.inr h

theorem getopt_loop_ok_calls_eq (w : World) :
    ∀ (opts : List optret) (l l2 : Locals), getopt_loop w opts l = .ok l2 →
      l2.calls = l.calls ++
        (opts.filter (fun o => decide (o.ch = 's'))).map
          (fun o => Event.getaddrinfo o.optarg) := by
  intro opts
  induction opts with
  | nil =>
    intro l l2 h
    simp only [getopt_loop, Except.ok.injEq] at h
    simp [h]
  | cons o rest ih =>
    intro l l2 h
    unfold getopt_loop at h
    by_cases hq : o.ch = 'q'
    · have hns : ¬ o.ch = 's' := by
        rw [hq]
        decide
      simp only [hq, if_true] at h
      have h2 := ih _ _ h
      simp only [List.filter_cons, hns, decide_False, Bool.false_eq_true,
        if_false]
      exact h2
    · by_cases hs : o.ch = 's'
      · by_cases hrc : (w.getaddrinfo o.optarg).1 = 0
        · simp only [hq, hs, if_true, if_false, hrc, ne_eq,
            not_true_eq_false] at h
          have h2 := ih _ _ h
          simp only [List.filter_cons, hs, decide_True, if_true, List.map_cons]
          rw [h2]
          simp
        · simp [hq, hs, hrc] at h
      · by_cases hz : o.ch = 'z'
        · simp only [hq, hs, hz, if_true, if_false] at h
          have h2 := ih _ _ h
          simp only [List.filter_cons, hs, decide_False, Bool.false_eq_true,
            if_false]
          exact h2
        · simp [hq, hs, hz] at h

theorem getopt_loop_ok_status (w : World) :
    ∀ (opts : List optret) (l l2 : Locals), getopt_loop w opts l = .ok l2 →
      ∀ o ∈ opts, o.ch = 's' → (w.getaddrinfo o.optarg).1 = 0 := by
  intro opts
  induction opts with
  | nil =>
    intro l l2 _ o ho
    simp at ho
  | cons o rest ih =>
    intro l l2 h x hx hxs
    unfold getopt_loop at h
    by_cases hq : o.ch = 'q'
    · simp only [hq, if_true] at h
      rcases List.mem_cons.mp hx with h1 | h1
      · subst h1
        rw [hq] at hxs
        exact absurd hxs (by decide)
      · exact ih _ _ h x h1 hxs
    · by_cases hs : o.ch = 's'
      · by_cases hrc : (w.getaddrinfo o.optarg).1 = 0
        · simp only [hq, hs, if_true, if_false, hrc, ne_eq,
            not_true_eq_false] at h
          rcases List.mem_cons.mp hx with h1 | h1
          · subst h1
            exact hrc
          · exact ih _ _ h x h1 hxs
        · simp [hq, hs, hrc] at h
      · by_cases hz : o.ch = 'z'
        · simp only [hq, hs, hz, if_true, if_false] at h
          rcases List.mem_cons.mp hx with h1 | h1
          · subst h1
            exact absurd hxs hs
          · exact ih _ _ h x h1 hxs
        · simp [hq, hs, hz] at h

theorem getopt_loop_ok_res (w : World)
    (hcontract : ∀ h, (w.getaddrinfo h).1 = 0 → (w.getaddrinfo h).2 ≠ []) :
    ∀ (opts : List optret) (l l2 : Locals), getopt_loop w opts l = .ok l2 →
      ((∃ o ∈ opts, o.ch = 's') ∨ l.res ≠ []) → l2.res ≠ [] := by
  intro opts
  induction opts with
  | nil =>
    intro l l2 h hsome
    simp only [getopt_loop, Except.ok.injEq] at h
    subst h
    rcases hsome with h1 | h1
    · simp at h1
    · exact h1
  | cons o rest ih =>
    intro l l2 h hsome
    unfold getopt_loop at h
    by_cases hq : o.ch = 'q'
    · simp only [hq, if_true] at h
      apply ih _ _ h
      rcases hsome with ⟨x, hx, hxs⟩ | h1
      · rcases List.mem_cons.mp hx with h3 | h3
        · subst h3
          rw [hq] at hxs
          exact absurd hxs (by decide)
        · exact Or.inl ⟨x, h3, hxs⟩
      · exact Or.inr h1
    · by_cases hs : o.ch = 's'
      · by_cases hrc : (w.getaddrinfo o.optarg).1 = 0
        · simp only [hq, hs, if_true, if_false, hrc, ne_eq,
            not_true_eq_false] at h
          exact ih _ _ h (Or.inr (hcontract _ hrc))
        · simp [hq, hs, hrc] at h
      · by_cases hz : o.ch = 'z'
        · simp only [hq, hs, hz, if_true, if_false] at h
          apply ih _ _ h
          rcases hsome with ⟨x, hx, hxs⟩ | h1
          · rcases List.mem_cons.mp hx with h3 | h3
            · subst h3
              exact absurd hxs hs
            · exact Or.inl ⟨x, h3, hxs⟩
          · exact Or.inr h1
        · simp [hq, hs, hz] at h

theorem getopt_loop_error_status (w : World) :
    ∀ (opts : List optret) (l : Locals) (r : Result),
      getopt_loop w opts l = .error r →
      (∀ h, Event.getaddrinfo h ∈ l.calls → (w.getaddrinfo h).1 = 0) →
      r.fatal = some Fatal.ResolutionError ∨
        ∀ h, Event.getaddrinfo h ∈ r.calls → (w.getaddrinfo h).1 = 0 := by
  intro opts
  induction opts with
  | nil =>
    intro l r h
    simp [getopt_loop] at h
  | cons o rest ih =>
    intro l r h hl
    unfold getopt_loop at h
    by_cases hq : o.ch = 'q'
    · simp only [hq, if_true] at h
      exact ih _ _ h hl
    · by_cases hs : o.ch = 's'
      · by_cases hrc : (w.getaddrinfo o.optarg).1 = 0
        · simp only [hq, hs, if_true, if_false, hrc, ne_eq,
            not_true_eq_false] at h
          apply ih _ _ h
          intro x hx
          simp only [List.mem_append, List.mem_singleton,
            Event.getaddrinfo.injEq] at hx
          rcases hx with h1 | h1
          · exact hl x h1
          · rw [h1]
            exact hrc
        · have hsq : ¬ ('s' : Char) = 'q' := by decide
          simp only [hq, hs, hsq, if_true, if_false, hrc, ne_eq,
            not_false_eq_true, Except.error.injEq] at h
          subst h
          exact Or.inl rfl
      · by_cases hz : o.ch = 'z'
        · simp only [hq, hs, hz, if_true, if_false] at h
          exact ih _ _ h hl
        · simp only [hq, hs, hz, if_false, Except.error.injEq] at h
          subst h
          exact Or.inr hl

theorem tail_calls_not_getaddrinfo (w : World) (path : String) (l : Locals)
    (d : pnfsdsfile) :
    ∀ e ∈ tail_calls w path l d, e.is_getaddrinfo = false := by
  intro e he
  unfold tail_calls at he
  split_ifs at he <;> simp at he <;>
    first
    | (subst he
       rfl)
    | (rcases he with he | he <;> subst he <;> rfl)
    | (rcases he with he | he | he <;> subst he <;> rfl)

theorem main_getaddrinfo_failed (w : World) (inv : Invocation) (host : String)
    (he : Event.getaddrinfo host ∈ (main w inv).calls)
    (hrc : (w.getaddrinfo host).1 ≠ 0) :
    (main w inv).fatal = some Fatal.ResolutionError ∧
    (main w inv).status = 1 ∧ (main w inv).stdout = "" ∧
    ∀ e ∈ (main w inv).calls, e.is_getaddrinfo = true := by
  cases hopt : getopt_loop w inv.opts locals0 with
  | error r =>
    have hm : main w inv = r := by
      unfold main
      rw [hopt]
    obtain ⟨h3, h4, _, _⟩ := getopt_loop_error w inv.opts locals0 r hopt
    rw [hm] at he ⊢
    rcases getopt_loop_error_status w inv.opts locals0 r hopt
      (by intro h hh; simp [locals0] at hh) with h1 | h1
    · exact ⟨h1, h3, h4, getopt_loop_error_getaddrinfo w inv.opts r hopt⟩
    · exact absurd (h1 host he) hrc
  | ok l =>
    exfalso
    have hl : Event.getaddrinfo host ∉ l.calls := by
      intro hm
      rw [getopt_loop_ok_calls_eq w inv.opts locals0 l hopt] at hm
      simp only [locals0, List.nil_append, List.mem_map, List.mem_filter,
        decide_eq_true_eq, Event.getaddrinfo.injEq] at hm
      obtain ⟨o, ⟨ho, hos⟩, e⟩ := hm
      have := getopt_loop_ok_status w inv.opts locals0 l hopt o ho hos
      rw [e] at this
      exact hrc this
    by_cases hargs : ∃ path, inv.operands = [path]
    · obtain ⟨path, hargs⟩ := hargs
      rw [main_ok w inv l path hopt hargs] at he
      split_ifs at he with hload
      · simp only [die, List.mem_append, List.mem_singleton] at he
        rcases he with h1 | h1
        · exact hl h1
        · cases h1
      · rw [zerofh_block_calls] at he
        rcases List.mem_append.mp he with h1 | h1
        · rcases List.mem_append.mp h1 with h2 | h2
          · exact hl h2
          · simp only [List.mem_singleton] at h2
            cases h2
        · have := tail_calls_not_getaddrinfo w path l _ _ h1
          simp [Event.is_getaddrinfo] at this
    · have hm : main w inv = die Fatal.UsageError l.calls := by
        unfold main
        rw [hopt]
        match hops : inv.operands with
        | [] => rfl
        | [p] => exact absurd ⟨p, hops⟩ hargs
        | _ :: _ :: _ => rfl
      rw [hm] at he
      exact hl he

theorem world0_getaddrinfo_contract (euid : Nat) (rc : Int) (hostn : String) :
    ∀ h, ((world0 euid rc hostn).getaddrinfo h).1 = 0 →
      ((world0 euid rc hostn).getaddrinfo h).2 ≠ [] := by
  intro h
  simp only [world0]
  split_ifs <;> simp

/-! ## The clearing decision -/

/-- C1: when `-z` is given by a caller with effective uid 0 and the attribute
was loaded as record `d`, `main` writes the attribute, with the handle replaced
by zero bytes, if and only if the candidate list is empty or some candidate
has the family of the record and, for `AF_INET`, the same 32-bit address or,
for `AF_INET6`, the same 128-bit address; there is no other write; every
record written has a handle of zero bytes only and the other members as
loaded; and replacing ports and IPv6 scopes everywhere, in the record and in
the candidates, never changes whether a write is made. -/
theorem maybe_clear_decision (w : World) (inv : Invocation) (l : Locals)
    (path : String) (d : pnfsdsfile)
    (hopt : getopt_loop w inv.opts locals0 = .ok l)
    (hargs : inv.operands = [path])
    (hload : (w.extattr_get_file path).1 = (w.sizeof_dsfile : Int))
    (hd : (w.extattr_get_file path).2 = d)
    (hz : l.zerofh = true) (hroot : w.geteuid = 0) :
    (Event.extattr_set_file path EXTATTR_NAMESPACE_SYSTEM "pnfsd.dsfile"
        { d with dsf_fh := List.replicate d.dsf_fh.length 0 } w.sizeof_dsfile
          ∈ (main w inv).calls ↔
      (l.res = [] ∨ ∃ ad ∈ l.res,
        ad.ai_addr.sin_family = d.dsf_nam.sin_family ∧
        ((d.dsf_nam.sin_family = AF_INET ∧
          d.dsf_nam.s_addr = ad.ai_addr.s_addr) ∨
         (d.dsf_nam.sin_family = AF_INET6 ∧
          d.dsf_nam.sin6_addr = ad.ai_addr.sin6_addr)))) ∧
    ((∃ e ∈ (main w inv).calls, e.is_write = true) ↔
      Event.extattr_set_file path EXTATTR_NAMESPACE_SYSTEM "pnfsd.dsfile"
        { d with dsf_fh := List.replicate d.dsf_fh.length 0 } w.sizeof_dsfile
          ∈ (main w inv).calls) ∧
    (∀ (p : String) (ns : Nat) (name : String) (data : pnfsdsfile) (nb : Nat),
      Event.extattr_set_file p ns name data nb ∈ (main w inv).calls →
      (∀ b ∈ data.dsf_fh, b = 0) ∧
      data.dsf_fh.length = d.dsf_fh.length ∧
      data.dsf_nam = d.dsf_nam ∧ data.dsf_dir = d.dsf_dir ∧
      data.dsf_filename = d.dsf_filename) ∧
    ∀ p z : sockaddr → Nat,
      (main (w.set_port_scope p z) inv).calls.any Event.is_write =
        (main w inv).calls.any Event.is_write := by
  subst hd
  have hcond : (l.res = [] ∨
        scan (w.extattr_get_file path).2.dsf_nam l.res ≠ []) ↔
      (l.res = [] ∨ ∃ ad ∈ l.res,
        ad.ai_addr.sin_family = (w.extattr_get_file path).2.dsf_nam.sin_family ∧
        (((w.extattr_get_file path).2.dsf_nam.sin_family = AF_INET ∧
          (w.extattr_get_file path).2.dsf_nam.s_addr = ad.ai_addr.s_addr) ∨
         ((w.extattr_get_file path).2.dsf_nam.sin_family = AF_INET6 ∧
          (w.extattr_get_file path).2.dsf_nam.sin6_addr
            = ad.ai_addr.sin6_addr))) := by
    rw [scan_ne_nil_iff]
    simp only [addr_match_iff]
  have hmem : Event.extattr_set_file path EXTATTR_NAMESPACE_SYSTEM
        "pnfsd.dsfile" (zero_fh (w.extattr_get_file path).2) w.sizeof_dsfile
          ∈ (main w inv).calls ↔
      (l.res = [] ∨ scan (w.extattr_get_file path).2.dsf_nam l.res ≠ []) := by
    constructor
    · intro he
      obtain ⟨l2, path2, h1, h2, _, _, _, _, h7⟩ := main_write w inv _ he rfl
      rw [hopt] at h1
      rw [hargs] at h2
      simp only [Except.ok.injEq] at h1
      simp only [List.cons.injEq, and_true] at h2
      subst h1
      subst h2
      exact h7
    · intro hc
      rw [main_ok w inv l path hopt hargs, if_neg (not_not.mpr hload)]
      exact zerofh_block_write_mem w path l _ _ hz hroot hc
  refine ⟨hmem.trans hcond, ⟨?_, fun h => ⟨_, h, rfl⟩⟩, ?_,
    fun p z => main_set_port_scope w p z inv⟩
  · rintro ⟨e, he, hw⟩
    obtain ⟨l2, path2, h1, h2, _, h4, _, _, h7⟩ := main_write w inv e he hw
    rw [hopt] at h1
    rw [hargs] at h2
    simp only [Except.ok.injEq] at h1
    simp only [List.cons.injEq, and_true] at h2
    subst h1
    subst h2
    exact hmem.mpr h7
  · intro p ns name data nb he
    obtain ⟨l2, path2, _, h2, _, h4, _, _, _⟩ := main_write w inv _ he rfl
    rw [hargs] at h2
    simp only [List.cons.injEq, and_true] at h2
    subst h2
    simp only [Event.extattr_set_file.injEq] at h4
    obtain ⟨_, _, _, rfl, _⟩ := h4
    refine ⟨?_, ?_, rfl, rfl, rfl⟩
    · intro b hb
      simp only [zero_fh] at hb
      exact (List.mem_replicate.mp hb).2
    · simp [zero_fh]

/-- Witness of C1: as root, `-s ds1 -z` on file `f`, whose record names the
address `ds1` resolves to, writes the record with the handle `1 2 3 4`
replaced by `0 0 0 0`. -/
theorem maybe_clear_decision_witness :
    Event.extattr_set_file "f" EXTATTR_NAMESPACE_SYSTEM "pnfsd.dsfile"
        { dsf_fh := [0, 0, 0, 0], dsf_dir := 2, dsf_nam := sa4 3405803781 2049,
          dsf_filename := "chunk001".toList ++ [Char.ofNat 0, 'x'] } 120 ∈
      (main (world0 0 0 "h") ⟨[⟨'s', "ds1"⟩, ⟨'z', ""⟩], ["f"]⟩).calls :=
  (maybe_clear_decision (world0 0 0 "h") ⟨[⟨'s', "ds1"⟩, ⟨'z', ""⟩], ["f"]⟩
    { quiet := false, zerofh := true,
      res := [⟨AF_INET, 16, sa4 3405803781 0⟩],
      calls := [Event.getaddrinfo "ds1"] } "f" rec0
    (by rfl) (by decide) (by decide) (by rfl) (by decide) (by decide)).1.mpr
    (Or.inr (by decide))

/-- C2: every write of the attribute that `main` makes goes to the attribute
`pnfsd.dsfile` in the system namespace of the file that was loaded, carries a
handle of the same length made of zero bytes only, carries `dsf_nam`,
`dsf_dir` and `dsf_filename` exactly as loaded, and has the full record size
as its byte count. -/
theorem clear_writes_zeroed_record (w : World) (inv : Invocation)
    (path : String) (attrnamespace : Nat) (attrname : String)
    (data : pnfsdsfile) (nbytes : Nat)
    (h : Event.extattr_set_file path attrnamespace attrname data nbytes
      ∈ (main w inv).calls) :
    inv.operands = [path] ∧
    (w.extattr_get_file path).1 = (w.sizeof_dsfile : Int) ∧
    attrnamespace = EXTATTR_NAMESPACE_SYSTEM ∧ attrname = "pnfsd.dsfile" ∧
    (∀ b ∈ data.dsf_fh, b = 0) ∧
    data.dsf_fh.length = (w.extattr_get_file path).2.dsf_fh.length ∧
    data.dsf_nam = (w.extattr_get_file path).2.dsf_nam ∧
    data.dsf_dir = (w.extattr_get_file path).2.dsf_dir ∧
    data.dsf_filename = (w.extattr_get_file path).2.dsf_filename ∧
    nbytes = w.sizeof_dsfile := by
  obtain ⟨l, path2, _, h2, h3, h4, _, _, _⟩ := main_write w inv _ h rfl
  simp only [Event.extattr_set_file.injEq] at h4
  obtain ⟨rfl, rfl, rfl, rfl, rfl⟩ := h4
  refine ⟨h2, h3, rfl, rfl, ?_, ?_, rfl, rfl, rfl, rfl⟩
  · intro b hb
    simp only [zero_fh] at hb
    exact (List.mem_replicate.mp hb).2
  · simp [zero_fh]

/-- Witness of C2: the write made by `-z` as root on file `f`. -/
theorem clear_writes_zeroed_record_witness :
    Event.extattr_set_file "f" 2 "pnfsd.dsfile"
        { rec0 with dsf_fh := [0, 0, 0, 0] } 120
      ∈ (main (world0 0 0 "h") ⟨[⟨'z', ""⟩], ["f"]⟩).calls ∧
    ∀ b ∈ [0, 0, 0, 0], b = 0 :=
  ⟨by decide,
   (clear_writes_zeroed_record (world0 0 0 "h") ⟨[⟨'z', ""⟩], ["f"]⟩ "f" 2
      "pnfsd.dsfile" { rec0 with dsf_fh := [0, 0, 0, 0] } 120
      (by decide)).2.2.2.2.1⟩

/-- C3: when `-z` is given, the attribute was loaded and the effective uid is
not 0, `main` ends at the permission error with exit status 1, prints nothing
and makes no attribute write, whatever the candidate list holds. -/
theorem clear_requires_root (w : World) (inv : Invocation) (l : Locals)
    (path : String)
    (hopt : getopt_loop w inv.opts locals0 = .ok l)
    (hargs : inv.operands = [path])
    (hload : (w.extattr_get_file path).1 = (w.sizeof_dsfile : Int))
    (hz : l.zerofh = true) (heuid : w.geteuid ≠ 0) :
    (main w inv).fatal = some Fatal.PermissionError ∧
    (main w inv).status = 1 ∧ (main w inv).stdout = "" ∧
    ∀ e ∈ (main w inv).calls, e.is_write = false := by
  have hm : main w inv = die Fatal.PermissionError (l.calls ++
      [Event.extattr_get_file path EXTATTR_NAMESPACE_SYSTEM "pnfsd.dsfile"
        w.sizeof_dsfile] ++ [Event.geteuid]) := by
    rw [main_ok w inv l path hopt hargs, if_neg (not_not.mpr hload)]
    unfold zerofh_block
    simp [hz, heuid]
  refine ⟨by rw [hm]; rfl, by rw [hm]; rfl, by rw [hm]; rfl, ?_⟩
  intro e he
  cases hw : e.is_write with
  | false => rfl
  | true =>
    obtain ⟨_, _, _, _, _, _, _, h6, _⟩ := main_write w inv e he hw
    exact absurd h6 heuid

/-- Witness of C3: uid 1001 runs `-s ds1 -z` on file `f`, whose record names
the very address `ds1` resolves to. -/
theorem clear_requires_root_witness :
    scan rec0.dsf_nam [⟨AF_INET, 16, sa4 3405803781 0⟩] ≠ [] ∧
    (main (world0 1001 0 "h") ⟨[⟨'s', "ds1"⟩, ⟨'z', ""⟩], ["f"]⟩).fatal
      = some Fatal.PermissionError :=
  ⟨by decide,
   (clear_requires_root (world0 1001 0 "h") ⟨[⟨'s', "ds1"⟩, ⟨'z', ""⟩], ["f"]⟩
    { quiet := false, zerofh := true,
      res := [⟨AF_INET, 16, sa4 3405803781 0⟩],
      calls := [Event.getaddrinfo "ds1"] } "f"
    (by rfl) (by decide) (by decide) (by decide) (by decide)).1⟩

/-- C4: when the record has family `AF_INET` and the candidate list is not
empty and holds `AF_INET6` addresses only, the scan ends without a match and
`main` makes no attribute write, whatever the address fields hold; likewise
for an `AF_INET6` record and `AF_INET` candidates. -/
theorem family_mismatch_never_clears (w : World) (inv : Invocation)
    (l : Locals) (path : String)
    (hopt : getopt_loop w inv.opts locals0 = .ok l)
    (hargs : inv.operands = [path])
    (hne : l.res ≠ []) :
    ((w.extattr_get_file path).2.dsf_nam.sin_family = AF_INET →
      (∀ ad ∈ l.res, ad.ai_addr.sin_family = AF_INET6) →
      scan (w.extattr_get_file path).2.dsf_nam l.res = [] ∧
      ∀ e ∈ (main w inv).calls, e.is_write = false) ∧
    ((w.extattr_get_file path).2.dsf_nam.sin_family = AF_INET6 →
      (∀ ad ∈ l.res, ad.ai_addr.sin_family = AF_INET) →
      scan (w.extattr_get_file path).2.dsf_nam l.res = [] ∧
      ∀ e ∈ (main w inv).calls, e.is_write = false) := by
  have key : scan (w.extattr_get_file path).2.dsf_nam l.res = [] →
      ∀ e ∈ (main w inv).calls, e.is_write = false := by
    intro hs e he
    cases hw : e.is_write with
    | false => rfl
    | true =>
      obtain ⟨l2, path2, h1, h2, _, _, _, _, h7⟩ := main_write w inv e he hw
      rw [hopt] at h1
      rw [hargs] at h2
      simp only [Except.ok.injEq] at h1
      simp only [List.cons.injEq, and_true] at h2
      subst h1
      subst h2
      rcases h7 with h7 | h7
      · exact absurd h7 hne
      · exact absurd hs h7
  have none_of : ∀ (a b : Nat), a ≠ b →
      (w.extattr_get_file path).2.dsf_nam.sin_family = a →
      (∀ ad ∈ l.res, ad.ai_addr.sin_family = b) →
      scan (w.extattr_get_file path).2.dsf_nam l.res = [] := by
    intro a b hab hf hall
    by_contra hs
    obtain ⟨ad, hmem, hm⟩ := (scan_ne_nil_iff _ _).mp hs
    have h1 := ((addr_match_iff _ _).mp hm).1
    rw [hall ad hmem, hf] at h1
    exact hab h1.symm
  constructor
  · intro hf hall
    have hs := none_of AF_INET AF_INET6 (by decide) hf hall
    exact ⟨hs, key hs⟩
  · intro hf hall
    have hs := none_of AF_INET6 AF_INET (by decide) hf hall
    exact ⟨hs, key hs⟩

/-- Witness of C4: as root, `-s ds6 -z` on the IPv4 record of file `f` and
`-s ds1 -z` on the IPv6 record of file `g` write nothing. -/
theorem family_mismatch_never_clears_witness :
    (∀ e ∈ (main (world0 0 0 "h") ⟨[⟨'s', "ds6"⟩, ⟨'z', ""⟩], ["f"]⟩).calls,
      e.is_write = false) ∧
    (∀ e ∈ (main (world0 0 0 "h") ⟨[⟨'s', "ds1"⟩, ⟨'z', ""⟩], ["g"]⟩).calls,
      e.is_write = false) :=
  ⟨((family_mismatch_never_clears (world0 0 0 "h")
      ⟨[⟨'s', "ds6"⟩, ⟨'z', ""⟩], ["f"]⟩
      { quiet := false, zerofh := true,
        res := [⟨AF_INET6, 28,
          sa6 42540766411282592856903984951653826565 0 0⟩],
        calls := [Event.getaddrinfo "ds6"] } "f"
      (by rfl) (by decide) (by decide)).1 (by decide) (by decide)).2,
   ((family_mismatch_never_clears (world0 0 0 "h")
      ⟨[⟨'s', "ds1"⟩, ⟨'z', ""⟩], ["g"]⟩
      { quiet := false, zerofh := true,
        res := [⟨AF_INET, 16, sa4 3405803781 0⟩],
        calls := [Event.getaddrinfo "ds1"] } "g"
      (by rfl) (by decide) (by decide)).2 (by decide) (by decide)).2⟩

/-! ## Resolution errors and the order of the steps -/

theorem main_resolution_error (w : World) (inv : Invocation)
    (hwf : ∀ o ∈ inv.opts, o.ch = 'q' ∨ o.ch = 's' ∨ o.ch = 'z')
    (hfail : ∃ o ∈ inv.opts, o.ch = 's' ∧ (w.getaddrinfo o.optarg).1 ≠ 0) :
    (main w inv).fatal = some Fatal.ResolutionError ∧
    (main w inv).status = 1 ∧ (main w inv).stdout = "" ∧
    ∀ e ∈ (main w inv).calls, e.is_getaddrinfo = true := by
  obtain ⟨r, h1, h2⟩ :=
    getopt_loop_resolution_error w inv.opts locals0 hwf hfail
  have hm : main w inv = r := by
    unfold main
    rw [h1]
  obtain ⟨h3, h4, _, _⟩ := getopt_loop_error w inv.opts locals0 r h1
  rw [hm]
  exact ⟨h2, h3, h4, getopt_loop_error_getaddrinfo w inv.opts r h1⟩

/-- C5: in a world where `getaddrinfo` keeps its contract, at least one
address whenever it returns 0, every `getaddrinfo` call `main` makes that
returns an error or no candidate ends the run at the resolution error with
exit status 1, nothing printed and no attribute write; so does, with
recognised options, every `-s` whose host resolves so; and when `-s` is given
the candidate list the option loop leaves is never empty, so a supplied filter
is never taken for a missing one and every attribute write is owed to a
candidate that matches the loaded record, never to an empty list. -/
theorem resolution_gates_clear (w : World) (inv : Invocation)
    (hcontract : ∀ h, (w.getaddrinfo h).1 = 0 → (w.getaddrinfo h).2 ≠ []) :
    (∀ host, Event.getaddrinfo host ∈ (main w inv).calls →
      ((w.getaddrinfo host).1 ≠ 0 ∨ (w.getaddrinfo host).2 = []) →
      (main w inv).fatal = some Fatal.ResolutionError ∧
      (main w inv).status = 1 ∧ (main w inv).stdout = "" ∧
      ∀ e ∈ (main w inv).calls, e.is_write = false) ∧
    ((∀ o ∈ inv.opts, o.ch = 'q' ∨ o.ch = 's' ∨ o.ch = 'z') →
      (∃ o ∈ inv.opts, o.ch = 's' ∧
        ((w.getaddrinfo o.optarg).1 ≠ 0 ∨ (w.getaddrinfo o.optarg).2 = [])) →
      (main w inv).fatal = some Fatal.ResolutionError ∧
      (main w inv).status = 1 ∧ (main w inv).stdout = "" ∧
      ∀ e ∈ (main w inv).calls, e.is_write = false) ∧
    ((∃ o ∈ inv.opts, o.ch = 's') →
      (∀ l, getopt_loop w inv.opts locals0 = .ok l → l.res ≠ []) ∧
      ∀ e ∈ (main w inv).calls, e.is_write = true →
        ∃ l path, getopt_loop w inv.opts locals0 = .ok l ∧
          inv.operands = [path] ∧
          ∃ ad ∈ l.res,
            addr_match (w.extattr_get_file path).2.dsf_nam ad.ai_addr
              = true) := by
  have nowrite : (∀ e ∈ (main w inv).calls, e.is_getaddrinfo = true) →
      ∀ e ∈ (main w inv).calls, e.is_write = false := by
    intro h e he
    have := h e he
    cases e <;> simp_all [Event.is_getaddrinfo, Event.is_write]
  have bad : ∀ host, ((w.getaddrinfo host).1 ≠ 0 ∨ (w.getaddrinfo host).2 = [])
      → (w.getaddrinfo host).1 ≠ 0 := by
    intro host h
    rcases h with h | h
    · exact h
    · exact fun h0 => hcontract host h0 h
  refine ⟨?_, ?_, ?_⟩
  · intro host he hb
    obtain ⟨h1, h2, h3, h4⟩ := main_getaddrinfo_failed w inv host he (bad host hb)
    exact ⟨h1, h2, h3, nowrite h4⟩
  · intro hwf hfail
    obtain ⟨o, ho, hos, hob⟩ := hfail
    obtain ⟨h1, h2, h3, h4⟩ :=
      main_resolution_error w inv hwf ⟨o, ho, hos, bad _ hob⟩
    exact ⟨h1, h2, h3, nowrite h4⟩
  · intro hs
    have hres : ∀ l, getopt_loop w inv.opts locals0 = .ok l → l.res ≠ [] :=
      fun l hl => getopt_loop_ok_res w hcontract inv.opts locals0 l hl
        (Or.inl hs)
    refine ⟨hres, ?_⟩
    intro e he hw
    obtain ⟨l, path, h3, h4, _, _, _, _, h7⟩ := main_write w inv e he hw
    refine ⟨l, path, h3, h4, ?_⟩
    rcases h7 with h7 | h7
    · exact absurd h7 (hres l h3)
    · exact (scan_ne_nil_iff _ _).mp h7

/-- Witness of C5: as root, `-s nohost -z` on file `f`, where `nohost` does
not resolve. -/
theorem resolution_gates_clear_witness :
    (main (world0 0 0 "h") ⟨[⟨'s', "nohost"⟩, ⟨'z', ""⟩], ["f"]⟩).fatal
        = some Fatal.ResolutionError ∧
    ∀ e ∈ (main (world0 0 0 "h") ⟨[⟨'s', "nohost"⟩, ⟨'z', ""⟩], ["f"]⟩).calls,
      e.is_write = false :=
  have h := (resolution_gates_clear (world0 0 0 "h")
      ⟨[⟨'s', "nohost"⟩, ⟨'z', ""⟩], ["f"]⟩
      (world0_getaddrinfo_contract 0 0 "h")).1 "nohost" (by decide)
      (Or.inl (by decide))
  ⟨h.1, h.2.2.2⟩

/-- Counterexample to C10: `-s nohost` on file `missing`, where the host does
not resolve and the file has no attribute: the run does not end at the
attribute read error with no resolution made, it ends at the resolution error
and the only call made is `getaddrinfo`. -/
theorem resolve_precedes_load_counterexample :
    ¬ (((world0 0 0 "h").extattr_get_file "missing").1 ≠ 120 →
      ((main (world0 0 0 "h") ⟨[⟨'s', "nohost"⟩], ["missing"]⟩).fatal
          = some Fatal.AttributeReadError ∧
       ∀ e ∈ (main (world0 0 0 "h") ⟨[⟨'s', "nohost"⟩], ["missing"]⟩).calls,
         e.is_getaddrinfo = false)) := by
  decide

/-- C10 as amended: resolution runs inside the option loop, before the load.
With one operand and recognised options, if some `getaddrinfo` call returns a
non-zero status `main` ends at the resolution error with exit status 1 and the
attribute is never read, whether or not the read would fail; if every
`getaddrinfo` call returns status 0 and the read fails, `main` ends at the
attribute read error with exit status 1 and the calls made are exactly one
`getaddrinfo` for each `-s` option, in the order of the command line, followed
by the read of the attribute. -/
theorem resolve_precedes_load (w : World) (inv : Invocation) (path : String)
    (hargs : inv.operands = [path])
    (hwf : ∀ o ∈ inv.opts, o.ch = 'q' ∨ o.ch = 's' ∨ o.ch = 'z') :
    ((∃ o ∈ inv.opts, o.ch = 's' ∧ (w.getaddrinfo o.optarg).1 ≠ 0) →
      (main w inv).fatal = some Fatal.ResolutionError ∧
      (main w inv).status = 1 ∧
      ∀ e ∈ (main w inv).calls, e.is_load = false) ∧
    ((∀ o ∈ inv.opts, o.ch = 's' → (w.getaddrinfo o.optarg).1 = 0) →
      (w.extattr_get_file path).1 ≠ (w.sizeof_dsfile : Int) →
      (main w inv).fatal = some Fatal.AttributeReadError ∧
      (main w inv).status = 1 ∧
      (main w inv).calls =
        (inv.opts.filter (fun o => decide (o.ch = 's'))).map
            (fun o => Event.getaddrinfo o.optarg) ++
          [Event.extattr_get_file path EXTATTR_NAMESPACE_SYSTEM "pnfsd.dsfile"
            w.sizeof_dsfile]) := by
  constructor
  · intro hfail
    obtain ⟨h1, h2, _, h4⟩ := main_resolution_error w inv hwf hfail
    refine ⟨h1, h2, ?_⟩
    intro e he
    have := h4 e he
    cases e <;> simp_all [Event.is_getaddrinfo, Event.is_load]
  · intro hall hload
    obtain ⟨l, h1, _⟩ := getopt_loop_resolution_ok w inv.opts locals0 hwf hall
    have hc := getopt_loop_ok_calls_eq w inv.opts locals0 l h1
    simp only [locals0, List.nil_append] at hc
    rw [main_ok w inv l path h1 hargs, if_pos hload]
    refine ⟨rfl, rfl, ?_⟩
    simp only [die]
    rw [hc]

/-- Witness of C10 as amended: `-s nohost` on file `missing` ends at the
resolution error, and `-s ds1 -s ds2` on file `missing` resolves both hosts
in turn before the read that fails. -/
theorem resolve_precedes_load_witness :
    (main (world0 0 0 "h") ⟨[⟨'s', "nohost"⟩], ["missing"]⟩).fatal
        = some Fatal.ResolutionError ∧
    (main (world0 0 0 "h") ⟨[⟨'s', "ds1"⟩, ⟨'s', "ds2"⟩], ["missing"]⟩).calls
        = [Event.getaddrinfo "ds1", Event.getaddrinfo "ds2",
           Event.extattr_get_file "missing" 2 "pnfsd.dsfile" 120] :=
  ⟨((resolve_precedes_load (world0 0 0 "h") ⟨[⟨'s', "nohost"⟩], ["missing"]⟩
      "missing" (by decide) (by decide)).1 (by decide)).1,
   ((resolve_precedes_load (world0 0 0 "h")
      ⟨[⟨'s', "ds1"⟩, ⟨'s', "ds2"⟩], ["missing"]⟩
      "missing" (by decide) (by decide)).2 (by decide) (by decide)).2.2⟩

/-! ## The summary line -/

/-- C6, the code at the failing input: the record of file `u` has address
family 0, reverse lookup returns the non-zero status 5 and leaves nothing
usable in `hostn`, yet `main` does not end at the reverse resolution error: it
prints a summary line and ends with status 0. -/
theorem reverse_lookup_failure_ignored :
    main (world0 0 5 "") ⟨[], ["u"]⟩ =
      { status := 0, fatal := none, stdout := "\tds3/chunk003\n",
        calls := [Event.extattr_get_file "u" 2 "pnfsd.dsfile" 120,
          Event.getnameinfo rec_unset.dsf_nam 0] } := by
  decide

theorem printf_line_runs_on :
    (main (world0 0 0 "h") ⟨[], ["n"]⟩).stdout = "h\tds1/aaaaXY\n" := by
  decide

/-- C9: when `-z` is given by root, the decision is to clear, the loaded
handle is already all zero and the write returns the full size, the record
written is the loaded record itself, `main` does not end at the write error
and goes on to the last step with the record unchanged; and zeroing the
handle twice gives the same record as zeroing it once. -/
theorem clear_idempotent (w : World) (inv : Invocation) (l : Locals)
    (path : String)
    (hopt : getopt_loop w inv.opts locals0 = .ok l)
    (hargs : inv.operands = [path])
    (hload : (w.extattr_get_file path).1 = (w.sizeof_dsfile : Int))
    (hz : l.zerofh = true) (hroot : w.geteuid = 0)
    (hcond : l.res = [] ∨ scan (w.extattr_get_file path).2.dsf_nam l.res ≠ [])
    (hzero : ∀ b ∈ (w.extattr_get_file path).2.dsf_fh, b = 0)
    (hset : w.extattr_set_file path (w.extattr_get_file path).2
      = (w.sizeof_dsfile : Int)) :
    zero_fh (w.extattr_get_file path).2 = (w.extattr_get_file path).2 ∧
    Event.extattr_set_file path EXTATTR_NAMESPACE_SYSTEM "pnfsd.dsfile"
      (w.extattr_get_file path).2 w.sizeof_dsfile ∈ (main w inv).calls ∧
    (main w inv).fatal ≠ some Fatal.AttributeWriteError ∧
    main w inv = describe w l.quiet (w.extattr_get_file path).2
      (l.calls ++
        [Event.extattr_get_file path EXTATTR_NAMESPACE_SYSTEM "pnfsd.dsfile"
          w.sizeof_dsfile] ++ [Event.geteuid] ++
        [Event.extattr_set_file path EXTATTR_NAMESPACE_SYSTEM "pnfsd.dsfile"
          (w.extattr_get_file path).2 w.sizeof_dsfile]) ∧
    ∀ r : pnfsdsfile, zero_fh (zero_fh r) = zero_fh r := by
  have hfix : zero_fh (w.extattr_get_file path).2
      = (w.extattr_get_file path).2 := by
    have hl : List.replicate (w.extattr_get_file path).2.dsf_fh.length 0
        = (w.extattr_get_file path).2.dsf_fh :=
      (List.eq_replicate_iff.mpr ⟨rfl, hzero⟩).symm
    unfold zero_fh
    rw [hl]
  have hm : main w inv = describe w l.quiet (w.extattr_get_file path).2
      (l.calls ++
        [Event.extattr_get_file path EXTATTR_NAMESPACE_SYSTEM "pnfsd.dsfile"
          w.sizeof_dsfile] ++ [Event.geteuid] ++
        [Event.extattr_set_file path EXTATTR_NAMESPACE_SYSTEM "pnfsd.dsfile"
          (w.extattr_get_file path).2 w.sizeof_dsfile]) := by
    rw [main_ok w inv l path hopt hargs, if_neg (not_not.mpr hload)]
    unfold zerofh_block
    simp only [hz, if_true, hroot, ne_eq, not_true_eq_false, if_false, hcond,
      hfix, hset]
  refine ⟨hfix, ?_, ?_, hm, ?_⟩
  · rw [hm, describe_calls]
    simp
  · rw [hm]
    unfold describe
    split_ifs <;> simp [die]
  · intro r
    simp [zero_fh]

/-- Witness of C9: as root, `-z` on file `g`, whose handle is already zero,
writes back the record that was loaded. -/
theorem clear_idempotent_witness :
    Event.extattr_set_file "g" EXTATTR_NAMESPACE_SYSTEM "pnfsd.dsfile" rec6 120
      ∈ (main (world0 0 0 "h") ⟨[⟨'z', ""⟩], ["g"]⟩).calls :=
  (clear_idempotent (world0 0 0 "h") ⟨[⟨'z', ""⟩], ["g"]⟩
    { quiet := false, zerofh := true, res := [], calls := [] } "g"
    (by rfl) (by decide) (by decide) (by decide) (by decide) (by decide)
    (by decide) (by decide)).2.1

end Pnfsdsfile
